import Mathlib

/-!
Verification of the "debt book" ledger application: a shallow embedding of
the simulated persistence/auth API (`services/api.ts`), the hash helper
(`services/crypto.ts`), the data types (`types.ts`), the totals computations
(`CustomerList.tsx`, `CustomerDetail.tsx`) and the profile-rename UI guard
(`App.tsx`), together with theorems about the properties the specification
states.

Modelling conventions:
* JavaScript numbers used as quantities/amounts are modelled as `Int`.
* The global `db` plus the `localStorage` entries form a `Store` record;
  every API function takes the store and returns it (state passing).
* `Record<string, Customer[]>` is modelled as `String → Option (List Customer)`.
* External primitives (`hashString` via SHA-256, `btoa`/`atob`, the
  `Date`-to-ISO conversion) are parameters bundled in an `Env` record; the
  only facts used about them are the ones theorems assume explicitly
  (e.g. `atob (btoa s) = some s`).
* `Date.now().toString()` id generation is an explicit `newId` argument.
* Thrown error messages are modelled by the `Err` enumeration from the
  specification's error taxonomy.
-/

/-- Transaction record (`types.ts`). `amount` is the unit price. -/
structure Transaction where
  id : String
  productName : String
  quantity : Int
  amount : Int
  isPaid : Bool
  date : String
deriving DecidableEq, Repr

/-- Customer record (`types.ts`). -/
structure Customer where
  id : String
  name : String
  transactions : List Transaction
deriving DecidableEq, Repr

/-- User record (`types.ts`). -/
structure User where
  username : String
  passwordHash : String
  recoveryQuestion : String
  recoveryAnswerHash : String
deriving DecidableEq, Repr

/-- The error taxonomy of the API (thrown `Error` messages). -/
inductive Err where
  | unauthorized
  | userNotFound
  | incorrectPassword
  | usernameTaken
  | recoveryAnswerIncorrect
  | customerNotFound
  | transactionNotFound
deriving DecidableEq, Repr

/-- External primitives the API calls: SHA-256 hashing (`crypto.ts`),
base64 encoding/decoding (`btoa`/`atob`), and `Date` to ISO-string
conversion used by `addTransaction`. -/
structure Env where
  hashString : String → String
  btoa : String → String
  atob : String → Option String
  isoDate : String → String

/-- The in-memory `db` object together with the relevant `localStorage`
entries: `storedUsers` is the `debtBookUsers` entry and `storedData k`
the `debtBookData_k` entry. -/
structure Store where
  users : List User
  customers : String → Option (List Customer)
  storedUsers : List User
  storedData : String → Option (List Customer)

/-- Point update of a string-keyed map (JS `m[k] = v`). -/
def mapSet {α : Type} (m : String → Option α) (k : String) (v : α) :
    String → Option α :=
  fun k' => if k' = k then some v else m k'

/-- Point removal from a string-keyed map (JS `delete m[k]`). -/
def mapDel {α : Type} (m : String → Option α) (k : String) :
    String → Option α :=
  fun k' => if k' = k then none else m k'

/-- `persistUsers` (`api.ts`): write the user directory to storage. -/
def persistUsers (s : Store) : Store :=
  { s with storedUsers := s.users }

/-- `persistCustomers` (`api.ts`): write one user's customer list to
storage, if present in memory. -/
def persistCustomers (u : String) (s : Store) : Store :=
  match s.customers u with
  | some l => { s with storedData := mapSet s.storedData u l }
  | none => s

/-- `removeCustomerData` (`api.ts`): delete one user's storage entry. -/
def removeCustomerData (u : String) (s : Store) : Store :=
  { s with storedData := mapDel s.storedData u }

/-- `getUsernameFromToken` (`api.ts`): decode the token and check that a
user with exactly that username exists. -/
def getUsernameFromToken (E : Env) (s : Store) (token : String) :
    Option String :=
  match E.atob token with
  | none => none
  | some username =>
      if s.users.any (fun u => u.username == username) then some username
      else none

/-- `calculateTotalDue` (`CustomerList.tsx`): sum of `amount * quantity`
over the unpaid transactions, by `filter` + `reduce`. -/
def calculateTotalDue (customer : Customer) : Int :=
  (customer.transactions.filter (fun t => !t.isPaid)).foldl
    (fun sum t => sum + t.amount * t.quantity) 0

/-- The `totalDue` component of `stats` (`CustomerDetail.tsx`). -/
def statsTotalDue (customer : Customer) : Int :=
  (customer.transactions.filter (fun t => !t.isPaid)).foldl
    (fun sum t => sum + t.amount * t.quantity) 0

/-- The `totalSpent` component of `stats` (`CustomerDetail.tsx`). -/
def statsTotalSpent (customer : Customer) : Int :=
  customer.transactions.foldl (fun sum t => sum + t.amount * t.quantity) 0

/-- The spec's description of total due: the sum of `quantity * amount`
over exactly the transactions whose `isPaid` is false. -/
def specTotalDue (customer : Customer) : Int :=
  ((customer.transactions.filter (fun t => !t.isPaid)).map
    (fun t => t.quantity * t.amount)).sum

/-- The spec's description of total spent: the sum of `quantity * amount`
over all transactions. -/
def specTotalSpent (customer : Customer) : Int :=
  (customer.transactions.map (fun t => t.quantity * t.amount)).sum

theorem foldl_add_eq_sum (f : Transaction → Int) (l : List Transaction)
    (a : Int) : l.foldl (fun sum t => sum + f t) a = a + (l.map f).sum := by
  induction l generalizing a with
  | nil => simp
  | cons t ts ih => simp [List.foldl_cons, ih, add_assoc]

/-- C1: the displayed total due equals the sum of `quantity * amount` over
exactly the unpaid transactions, and the total spent the same sum over all
transactions, in both components that display them; on the spec's example
customer the totals are 100 and 130. -/
theorem totals_match_spec :
    (∀ c : Customer,
      calculateTotalDue c = specTotalDue c ∧
      statsTotalDue c = specTotalDue c ∧
      statsTotalSpent c = specTotalSpent c) ∧
    (let ex : Customer :=
      { id := "c1", name := "n",
        transactions :=
          [{ id := "t1", productName := "p", quantity := 2, amount := 50,
             isPaid := false, date := "d" },
           { id := "t2", productName := "q", quantity := 1, amount := 30,
             isPaid := true, date := "d" }] }
     statsTotalDue ex = 100 ∧ statsTotalSpent ex = 130) := by
  constructor
  · intro c
    refine ⟨?_, ?_, ?_⟩ <;>
      simp [calculateTotalDue, statsTotalDue, statsTotalSpent, specTotalDue,
        specTotalSpent, foldl_add_eq_sum, mul_comm]
  · constructor <;> decide

/-- Placeholder user for indexing that the control flow keeps unreachable
(JS would throw a `TypeError` there). -/
def dUser : User := { username := "", passwordHash := "", recoveryQuestion := "", recoveryAnswerHash := "" }

/-- Placeholder customer for indexing that the control flow keeps
unreachable. -/
def dCustomer : Customer := { id := "", name := "", transactions := [] }

/-- `login` (`api.ts`): case-insensitive username lookup, hash comparison,
token from `btoa` of the stored username. -/
def login (E : Env) (s : Store) (username password : String) :
    Except Err (String × String) × Store :=
  match s.users.find? (fun u => u.username.toLower == username.toLower) with
  | none => (.error .userNotFound, s)
  | some user =>
      let passwordHash := E.hashString password
      if user.passwordHash ≠ passwordHash then (.error .incorrectPassword, s)
      else (.ok (E.btoa user.username, user.username), s)

/-- `register` (`api.ts`). -/
def register (E : Env) (s : Store)
    (username password recoveryQuestion recoveryAnswer : String) :
    Except Err (String × String) × Store :=
  if s.users.any (fun u => u.username.toLower == username.toLower) then
    (.error .usernameTaken, s)
  else
    let newUser : User :=
      { username := username, recoveryQuestion := recoveryQuestion,
        passwordHash := E.hashString password,
        recoveryAnswerHash := E.hashString recoveryAnswer.toLower }
    let s₁ := { s with users := s.users ++ [newUser],
                       customers := mapSet s.customers newUser.username [] }
    (.ok (E.btoa newUser.username, newUser.username),
      persistCustomers newUser.username (persistUsers s₁))

/-- `findUserForRecovery` (`api.ts`). -/
def findUserForRecovery (s : Store) (username : String) :
    Except Err User × Store :=
  match s.users.find? (fun u => u.username.toLower == username.toLower) with
  | none => (.error .userNotFound, s)
  | some user => (.ok user, s)

/-- `verifyRecoveryAnswer` (`api.ts`): the answer is lowercased before
hashing. -/
def verifyRecoveryAnswer (E : Env) (s : Store) (username answer : String) :
    Except Err Bool × Store :=
  let user? := s.users.find? (fun u => u.username.toLower == username.toLower)
  let answerHash := E.hashString answer.toLower
  match user? with
  | none => (.error .recoveryAnswerIncorrect, s)
  | some user =>
      if user.recoveryAnswerHash ≠ answerHash then
        (.error .recoveryAnswerIncorrect, s)
      else (.ok true, s)

/-- `resetPassword` (`api.ts`). -/
def resetPassword (E : Env) (s : Store) (username newPassword : String) :
    Except Err Unit × Store :=
  match s.users.findIdx? (fun u => u.username.toLower == username.toLower) with
  | none => (.error .userNotFound, s)
  | some userIndex =>
      let u := s.users.getD userIndex dUser
      let newUsers := s.users.set userIndex { u with passwordHash := E.hashString newPassword }
      let s₁ := { s with users := newUsers }
      (.ok (), persistUsers s₁)

/-- `updateUsername` (`api.ts`): rename the directory entry in place, move
the customer-data entry to the new key, delete the old key, persist all
three, and return a token for the new name. -/
def updateUsername (E : Env) (s : Store) (token newUsername : String) :
    Except Err (String × String) × Store :=
  match getUsernameFromToken E s token with
  | none => (.error .unauthorized, s)
  | some oldUsername =>
      if s.users.any (fun u => u.username.toLower == newUsername.toLower) then
        (.error .usernameTaken, s)
      else
        -- the exact-match index exists because the token resolved to a user
        let userIndex := (s.users.findIdx? (fun u => u.username == oldUsername)).getD 0
        let u := s.users.getD userIndex dUser
        let newUsers := s.users.set userIndex { u with username := newUsername }
        let s₁ := { s with users := newUsers }
        let L := (s₁.customers oldUsername).getD []
        let newCust := mapDel (mapSet s₁.customers newUsername L) oldUsername
        let s₂ := { s₁ with customers := newCust }
        (.ok (E.btoa newUsername, newUsername),
          removeCustomerData oldUsername
            (persistCustomers newUsername (persistUsers s₂)))

/-- `getCustomers` (`api.ts`): a copy of the caller's customer list. -/
def getCustomers (E : Env) (s : Store) (token : String) :
    Except Err (List Customer) × Store :=
  match getUsernameFromToken E s token with
  | none => (.error .unauthorized, s)
  | some username => (.ok ((s.customers username).getD []), s)

/-- `addCustomer` (`api.ts`); the fresh `Date.now()` id is the explicit
`newId` argument. -/
def addCustomer (E : Env) (s : Store) (token name newId : String) :
    Except Err Customer × Store :=
  match getUsernameFromToken E s token with
  | none => (.error .unauthorized, s)
  | some username =>
      let newCustomer : Customer := { id := newId, name := name, transactions := [] }
      let cl := (s.customers username).getD []
      let newCust := mapSet s.customers username (cl ++ [newCustomer])
      let s₁ := { s with customers := newCust }
      (.ok newCustomer, persistCustomers username s₁)

/-- `renameCustomer` (`api.ts`). -/
def renameCustomer (E : Env) (s : Store) (token customerId newName : String) :
    Except Err Customer × Store :=
  match getUsernameFromToken E s token with
  | none => (.error .unauthorized, s)
  | some username =>
      let cl := (s.customers username).getD []
      match cl.findIdx? (fun c => c.id == customerId) with
      | none => (.error .customerNotFound, s)
      | some customerIndex =>
          let c := cl.getD customerIndex dCustomer
          let c' := { c with name := newName }
          let newCust := mapSet s.customers username (cl.set customerIndex c')
          let s₁ := { s with customers := newCust }
          (.ok c', persistCustomers username s₁)

/-- `deleteCustomer` (`api.ts`): filter by id; an absent id silently
no-ops. -/
def deleteCustomer (E : Env) (s : Store) (token customerId : String) :
    Except Err Unit × Store :=
  match getUsernameFromToken E s token with
  | none => (.error .unauthorized, s)
  | some username =>
      let cl := (s.customers username).getD []
      let newCust := mapSet s.customers username (cl.filter (fun c => c.id != customerId))
      let s₁ := { s with customers := newCust }
      (.ok (), persistCustomers username s₁)

/-- The `{productName, quantity, price, date}` argument of
`addTransaction`. -/
structure TxData where
  productName : String
  quantity : Int
  price : Int
  date : String
deriving DecidableEq, Repr

/-- `addTransaction` (`api.ts`): build the new transaction (unpaid, ISO
date) and prepend it; the fresh `Date.now()` id is the explicit `newId`
argument. -/
def addTransaction (E : Env) (s : Store) (token customerId : String)
    (txData : TxData) (newId : String) : Except Err Transaction × Store :=
  match getUsernameFromToken E s token with
  | none => (.error .unauthorized, s)
  | some username =>
      let cl := (s.customers username).getD []
      match cl.findIdx? (fun c => c.id == customerId) with
      | none => (.error .customerNotFound, s)
      | some customerIndex =>
          let c := cl.getD customerIndex dCustomer
          let newTransaction : Transaction :=
            { id := newId, productName := txData.productName,
              quantity := txData.quantity, amount := txData.price,
              isPaid := false, date := E.isoDate (txData.date ++ "T00:00:00") }
          let updatedTransactions := newTransaction :: c.transactions
          let newCust := mapSet s.customers username
            (cl.set customerIndex { c with transactions := updatedTransactions })
          let s₁ := { s with customers := newCust }
          (.ok newTransaction, persistCustomers username s₁)

/-- The `map` of `toggleTransactionPaid` together with the mutable
`updatedTransaction` variable: flips every transaction whose id matches and
records the last flipped one. -/
def toggleScan : List Transaction → String → List Transaction × Option Transaction
  | [], _ => ([], none)
  | t :: ts, tid =>
      let (rest, found) := toggleScan ts tid
      if t.id == tid then
        let ut := { t with isPaid := !t.isPaid }
        (ut :: rest, match found with | some u => some u | none => some ut)
      else (t :: rest, found)

/-- `toggleTransactionPaid` (`api.ts`). -/
def toggleTransactionPaid (E : Env) (s : Store)
    (token customerId transactionId : String) :
    Except Err Transaction × Store :=
  match getUsernameFromToken E s token with
  | none => (.error .unauthorized, s)
  | some username =>
      let cl := (s.customers username).getD []
      match cl.findIdx? (fun c => c.id == customerId) with
      | none => (.error .customerNotFound, s)
      | some customerIndex =>
          let c := cl.getD customerIndex dCustomer
          let scan := toggleScan c.transactions transactionId
          match scan.2 with
          | none => (.error .transactionNotFound, s)
          | some updatedTransaction =>
              let newCust := mapSet s.customers username
                (cl.set customerIndex { c with transactions := scan.1 })
              let s₁ := { s with customers := newCust }
              (.ok updatedTransaction, persistCustomers username s₁)

/-- `deleteTransaction` (`api.ts`). -/
def deleteTransaction (E : Env) (s : Store)
    (token customerId transactionId : String) :
    Except Err Unit × Store :=
  match getUsernameFromToken E s token with
  | none => (.error .unauthorized, s)
  | some username =>
      let cl := (s.customers username).getD []
      match cl.findIdx? (fun c => c.id == customerId) with
      | none => (.error .customerNotFound, s)
      | some customerIndex =>
          let c := cl.getD customerIndex dCustomer
          match c.transactions.findIdx? (fun t => t.id == transactionId) with
          | none => (.error .transactionNotFound, s)
          | some _ =>
              let updatedTransactions :=
                c.transactions.filter (fun t => t.id != transactionId)
              let newCust := mapSet s.customers username
                (cl.set customerIndex { c with transactions := updatedTransactions })
              let s₁ := { s with customers := newCust }
              (.ok (), persistCustomers username s₁)

/-- Outcome of the `handleUpdateUsername` handler in `App.tsx` before/at
the API boundary. -/
inductive UiAction where
  | errNotAuthenticated
  | noopSuccess
  | errEmpty
  | callApi (trimmed : String)
deriving DecidableEq, Repr

/-- The pure decision logic of `handleUpdateUsername` (`App.tsx`): reject
when logged out, treat a same-username-ignoring-case submission as a no-op
success without calling the API, reject an empty name, otherwise call
`api.updateUsername` with the trimmed name. -/
def handleUpdateUsername (authToken : Option String)
    (currentUser : Option String) (newUsername : String) : UiAction :=
  match authToken with
  | none => .errNotAuthenticated
  | some _ =>
      let trimmedUsername := newUsername.trim
      if some trimmedUsername.toLower = currentUser.map String.toLower then
        .noopSuccess
      else if trimmedUsername = "" then .errEmpty
      else .callApi trimmedUsername

/-! Helper lemmas about list search, point updates and the toggle scan. -/

theorem find?_middle {α : Type} (p : α → Bool) (l₁ l₂ : List α) (c : α)
    (h₁ : ∀ x ∈ l₁, p x = false) (hc : p c = true) :
    (l₁ ++ c :: l₂).find? p = some c := by
  induction l₁ with
  | nil => simp [List.find?_cons, hc]
  | cons a as ih =>
      have ha := h₁ a (by simp)
      simp only [List.cons_append, List.find?_cons, ha]
      exact ih fun x hx => h₁ x (by simp [hx])

theorem find?_none_of_all {α : Type} (p : α → Bool) (l : List α)
    (h : ∀ x ∈ l, p x = false) : l.find? p = none := by
  apply List.find?_eq_none.mpr
  intro x hx
  simp [h x hx]

theorem any_false_of_all {α : Type} (p : α → Bool) (l : List α)
    (h : ∀ x ∈ l, p x = false) : l.any p = false := by
  simp only [List.any_eq_false]
  intro x hx
  simp [h x hx]

theorem any_true_of_mem {α : Type} (p : α → Bool) (l : List α) (x : α)
    (hx : x ∈ l) (hp : p x = true) : l.any p = true :=
  List.any_eq_true.mpr ⟨x, hx, hp⟩

theorem findIdx?_middle {α : Type} (p : α → Bool) (l₁ l₂ : List α) (c : α)
    (h₁ : ∀ x ∈ l₁, p x = false) (hc : p c = true) :
    (l₁ ++ c :: l₂).findIdx? p = some l₁.length := by
  induction l₁ with
  | nil => simp [List.findIdx?_cons, hc]
  | cons a as ih =>
      have ha := h₁ a (by simp)
      have ih' := ih fun x hx => h₁ x (by simp [hx])
      simp [List.findIdx?_cons, ha, ih']

theorem findIdx?_none_of_all {α : Type} (p : α → Bool) (l : List α)
    (h : ∀ x ∈ l, p x = false) : l.findIdx? p = none := by
  induction l with
  | nil => simp
  | cons a as ih =>
      have ha := h a (by simp)
      have ih' := ih fun x hx => h x (by simp [hx])
      simp [List.findIdx?_cons, ha, ih']

theorem getD_middle {α : Type} (l₁ l₂ : List α) (c d : α) :
    (l₁ ++ c :: l₂).getD l₁.length d = c := by
  induction l₁ with
  | nil => rfl
  | cons a as ih => simpa using ih

theorem set_middle {α : Type} (l₁ l₂ : List α) (c c' : α) :
    (l₁ ++ c :: l₂).set l₁.length c' = l₁ ++ c' :: l₂ := by
  induction l₁ with
  | nil => rfl
  | cons a as ih => simp [List.set, ih]

theorem mapSet_same {α : Type} (m : String → Option α) (k : String) (v : α) :
    mapSet m k v k = some v := by simp [mapSet]

theorem mapSet_other {α : Type} (m : String → Option α) (k k' : String)
    (v : α) (h : k' ≠ k) : mapSet m k v k' = m k' := by simp [mapSet, h]

theorem mapDel_same {α : Type} (m : String → Option α) (k : String) :
    mapDel m k k = none := by simp [mapDel]

theorem mapDel_other {α : Type} (m : String → Option α) (k k' : String)
    (h : k' ≠ k) : mapDel m k k' = m k' := by simp [mapDel, h]

theorem mapSet_self {α : Type} (m : String → Option α) (k : String) (v : α)
    (h : m k = some v) : mapSet m k v = m := by
  funext k'
  by_cases hk : k' = k
  · subst hk; simp [mapSet, h]
  · simp [mapSet, hk]

theorem mapSet_mapSet {α : Type} (m : String → Option α) (k : String)
    (v v' : α) : mapSet (mapSet m k v) k v' = mapSet m k v' := by
  funext k'
  by_cases hk : k' = k <;> simp [mapSet, hk]

theorem toggleScan_none (l : List Transaction) (tid : String)
    (h : ∀ t ∈ l, t.id ≠ tid) : toggleScan l tid = (l, none) := by
  induction l with
  | nil => rfl
  | cons t ts ih =>
      have ht : (t.id == tid) = false := by
        simp [h t (by simp)]
      have ih' := ih fun x hx => h x (by simp [hx])
      simp [toggleScan, ht, ih']

theorem toggleScan_middle (l₁ l₂ : List Transaction) (tx : Transaction)
    (tid : String) (h₁ : ∀ t ∈ l₁, t.id ≠ tid) (h₂ : ∀ t ∈ l₂, t.id ≠ tid)
    (htid : tx.id = tid) :
    toggleScan (l₁ ++ tx :: l₂) tid =
      (l₁ ++ { tx with isPaid := !tx.isPaid } :: l₂,
       some { tx with isPaid := !tx.isPaid }) := by
  induction l₁ with
  | nil =>
      simp only [List.nil_append]
      rw [toggleScan]
      simp [htid, toggleScan_none l₂ tid h₂]
  | cons a as ih =>
      have ha : (a.id == tid) = false := by
        simp [h₁ a (by simp)]
      have ih' := ih fun x hx => h₁ x (by simp [hx])
      simp [toggleScan, ha, ih']

/-- Evaluation form of `String.toLower` on the character list, used to
compute lowercase comparisons on literals. -/
theorem toLower_data (s : String) : s.toLower = ⟨s.data.map Char.toLower⟩ :=
  String.map_eq Char.toLower s

/-- Concrete environment for witnesses: identity primitives (`atob` is a
left inverse of `btoa`, as for base64). -/
def E0 : Env :=
  { hashString := fun s => s, btoa := fun s => s,
    atob := fun s => some s, isoDate := fun s => s }

/-- A registered user for witnesses (password "pw", answer "blue",
hashes under `E0.hashString`). -/
def uAlice : User :=
  { username := "alice", passwordHash := "pw", recoveryQuestion := "q",
    recoveryAnswerHash := "blue" }

/-- A one-user store for witnesses. -/
def sAlice : Store :=
  { users := [uAlice], customers := fun k => if k = "alice" then some [] else none,
    storedUsers := [uAlice],
    storedData := fun k => if k = "alice" then some [] else none }

/-- C3: login succeeds for any letter-case variation of a registered
username with the correct password and returns the username as stored;
it fails with `UserNotFound` when no username matches case-insensitively,
and with `IncorrectPassword` when the hash of the supplied password
differs from the stored hash. -/
theorem login_spec (E : Env) (s : Store) :
    (∀ (us₁ us₂ : List User) (u : User) (v password : String),
      s.users = us₁ ++ u :: us₂ →
      (∀ w ∈ us₁, w.username.toLower ≠ v.toLower) →
      v.toLower = u.username.toLower →
      u.passwordHash = E.hashString password →
      login E s v password = (.ok (E.btoa u.username, u.username), s)) ∧
    (∀ v password,
      (∀ w ∈ s.users, w.username.toLower ≠ v.toLower) →
      login E s v password = (.error .userNotFound, s)) ∧
    (∀ (us₁ us₂ : List User) (u : User) (v password : String),
      s.users = us₁ ++ u :: us₂ →
      (∀ w ∈ us₁, w.username.toLower ≠ v.toLower) →
      v.toLower = u.username.toLower →
      u.passwordHash ≠ E.hashString password →
      login E s v password = (.error .incorrectPassword, s)) := by
  refine ⟨?_, ?_, ?_⟩
  · intro us₁ us₂ u v pw hu hpre hv hpw
    have hfind : s.users.find? (fun w => w.username.toLower == v.toLower) = some u := by
      rw [hu]
      exact find?_middle _ _ _ _ (fun x hx => by simp [hpre x hx]) (by simp [hv])
    simp [login, hfind, hpw]
  · intro v pw hall
    have hfind : s.users.find? (fun w => w.username.toLower == v.toLower) = none :=
      find?_none_of_all _ _ fun x hx => by simp [hall x hx]
    simp [login, hfind]
  · intro us₁ us₂ u v pw hu hpre hv hpw
    have hfind : s.users.find? (fun w => w.username.toLower == v.toLower) = some u := by
      rw [hu]
      exact find?_middle _ _ _ _ (fun x hx => by simp [hpre x hx]) (by simp [hv])
    simp [login, hfind, hpw]

theorem login_spec_witness :
    login E0 sAlice "ALICE" "pw" = (.ok ("alice", "alice"), sAlice) ∧
    login E0 sAlice "bob" "x" = (.error .userNotFound, sAlice) ∧
    login E0 sAlice "Alice" "bad" = (.error .incorrectPassword, sAlice) := by
  refine ⟨?_, ?_, ?_⟩
  · exact (login_spec E0 sAlice).1 [] [] uAlice "ALICE" "pw" rfl
      (by simp) (by rw [toLower_data, toLower_data]; decide) (by decide)
  · refine (login_spec E0 sAlice).2.1 "bob" "x" ?_
    intro w hw
    simp only [sAlice, List.mem_singleton] at hw
    subst hw
    rw [toLower_data, toLower_data]
    decide
  · exact (login_spec E0 sAlice).2.2 [] [] uAlice "Alice" "bad" rfl
      (by simp) (by rw [toLower_data, toLower_data]; decide) (by decide)

/-- C5: for a logged-in user and a customer id present in the list,
`addTransaction` returns the newly created transaction and stores it at
the head of that customer's sequence, with the existing transactions in
order after it; the rest of the customer list is untouched. -/
theorem addTransaction_prepends (E : Env) (s : Store)
    (tok cid newId uname : String) (td : TxData)
    (cl₁ cl₂ : List Customer) (c : Customer)
    (hdec : E.atob tok = some uname)
    (hmem : ∃ w ∈ s.users, w.username = uname)
    (hcl : s.customers uname = some (cl₁ ++ c :: cl₂))
    (hc1 : ∀ d ∈ cl₁, d.id ≠ cid)
    (hcid : c.id = cid) :
    (addTransaction E s tok cid td newId).1 =
        .ok { id := newId, productName := td.productName,
              quantity := td.quantity, amount := td.price, isPaid := false,
              date := E.isoDate (td.date ++ "T00:00:00") } ∧
      (addTransaction E s tok cid td newId).2.customers uname = some (cl₁ ++
        { c with transactions :=
            { id := newId, productName := td.productName,
              quantity := td.quantity, amount := td.price, isPaid := false,
              date := E.isoDate (td.date ++ "T00:00:00") } :: c.transactions } :: cl₂) := by
  have hauth : getUsernameFromToken E s tok = some uname := by
    obtain ⟨w, hw, hwname⟩ := hmem
    have hany : s.users.any (fun u => u.username == uname) = true :=
      any_true_of_mem _ _ w hw (by simp [hwname])
    simp [getUsernameFromToken, hdec, hany]
  have hidx : (cl₁ ++ c :: cl₂).findIdx? (fun d => d.id == cid) = some cl₁.length :=
    findIdx?_middle _ _ _ _ (fun x hx => by simp [hc1 x hx]) (by simp [hcid])
  have h1 : (addTransaction E s tok cid td newId).1 =
      .ok { id := newId, productName := td.productName,
            quantity := td.quantity, amount := td.price, isPaid := false,
            date := E.isoDate (td.date ++ "T00:00:00") } := by
    simp only [addTransaction, hauth, hcl, Option.getD_some, hidx,
      getD_middle, set_middle, persistCustomers, mapSet_same]
  have h2 : (addTransaction E s tok cid td newId).2.customers uname =
      some (cl₁ ++
        { c with transactions :=
            { id := newId, productName := td.productName,
              quantity := td.quantity, amount := td.price, isPaid := false,
              date := E.isoDate (td.date ++ "T00:00:00") } :: c.transactions } :: cl₂) := by
    simp only [addTransaction, hauth, hcl, Option.getD_some, hidx,
      getD_middle, set_middle, persistCustomers, mapSet_same]
  exact ⟨h1, h2⟩

/-- A transaction T1 for witnesses. -/
def tx1 : Transaction :=
  { id := "t1", productName := "rice", quantity := 1, amount := 10,
    isPaid := false, date := "2024-01-01" }

/-- A customer already holding the single transaction [T1]. -/
def cBob : Customer := { id := "c0", name := "Bob", transactions := [tx1] }

/-- A store in which alice owns the customer `cBob`. -/
def sLedger : Store :=
  { users := [uAlice],
    customers := fun k => if k = "alice" then some [cBob] else none,
    storedUsers := [uAlice],
    storedData := fun k => if k = "alice" then some [cBob] else none }

theorem addTransaction_prepends_witness :
    (addTransaction E0 sLedger "alice" "c0"
        { productName := "salt", quantity := 2, price := 5, date := "2024-02-02" }
        "t2").1 =
      .ok { id := "t2", productName := "salt", quantity := 2, amount := 5,
            isPaid := false, date := E0.isoDate ("2024-02-02" ++ "T00:00:00") } ∧
    (addTransaction E0 sLedger "alice" "c0"
        { productName := "salt", quantity := 2, price := 5, date := "2024-02-02" }
        "t2").2.customers "alice" = some
      [{ cBob with transactions :=
          [{ id := "t2", productName := "salt", quantity := 2, amount := 5,
             isPaid := false, date := E0.isoDate ("2024-02-02" ++ "T00:00:00") },
           tx1] }] :=
  addTransaction_prepends E0 sLedger "alice" "c0" "t2" "alice"
    { productName := "salt", quantity := 2, price := 5, date := "2024-02-02" }
    [] [] cBob rfl ⟨uAlice, by simp [sLedger], rfl⟩ rfl (by simp) rfl

/-- C9 counterexample: `addTransaction` performs no uniqueness check on the
generated id. Supplying the id "t1" already present in the customer's
sequence (as `Date.now()` does when two calls land in the same
millisecond), the call succeeds and the resulting sequence carries the id
twice, violating the per-customer uniqueness invariant. -/
theorem addTransaction_id_collision :
    (addTransaction E0 sLedger "alice" "c0"
        { productName := "salt", quantity := 2, price := 5, date := "2024-02-02" }
        "t1").1 =
      .ok { id := "t1", productName := "salt", quantity := 2, amount := 5,
            isPaid := false, date := "2024-02-02T00:00:00" } ∧
    ¬ (((((addTransaction E0 sLedger "alice" "c0"
        { productName := "salt", quantity := 2, price := 5, date := "2024-02-02" }
        "t1").2.customers "alice").getD []).headD dCustomer).transactions.map
          (fun t => t.id)).Nodup :=
  ⟨rfl, by decide⟩

/-- C9 (amended): provided the id supplied to `addTransaction` is fresh for
the target customer's sequence — which is what drawing ids from a strictly
increasing clock gives — a sequence with unique transaction ids stays
unique, and the other customers are untouched. -/
theorem addTransaction_fresh_id_unique (E : Env) (s : Store)
    (tok cid newId uname : String) (td : TxData)
    (cl₁ cl₂ : List Customer) (c : Customer)
    (hdec : E.atob tok = some uname)
    (hmem : ∃ w ∈ s.users, w.username = uname)
    (hcl : s.customers uname = some (cl₁ ++ c :: cl₂))
    (hc1 : ∀ d ∈ cl₁, d.id ≠ cid)
    (hcid : c.id = cid)
    (hfresh : ∀ t ∈ c.transactions, t.id ≠ newId)
    (huniq : (c.transactions.map (fun t => t.id)).Nodup) :
    (addTransaction E s tok cid td newId).2.customers uname = some (cl₁ ++
        { c with transactions :=
            { id := newId, productName := td.productName,
              quantity := td.quantity, amount := td.price, isPaid := false,
              date := E.isoDate (td.date ++ "T00:00:00") } :: c.transactions } :: cl₂) ∧
      ((({ id := newId, productName := td.productName,
           quantity := td.quantity, amount := td.price, isPaid := false,
           date := E.isoDate (td.date ++ "T00:00:00") } : Transaction) ::
          c.transactions).map (fun t => t.id)).Nodup := by
  have hauth : getUsernameFromToken E s tok = some uname := by
    obtain ⟨w, hw, hwname⟩ := hmem
    have hany : s.users.any (fun u => u.username == uname) = true :=
      any_true_of_mem _ _ w hw (by simp [hwname])
    simp [getUsernameFromToken, hdec, hany]
  have hidx : (cl₁ ++ c :: cl₂).findIdx? (fun d => d.id == cid) = some cl₁.length :=
    findIdx?_middle _ _ _ _ (fun x hx => by simp [hc1 x hx]) (by simp [hcid])
  constructor
  · simp only [addTransaction, hauth, hcl, Option.getD_some, hidx,
      getD_middle, set_middle, persistCustomers, mapSet_same]
  · simp only [List.map_cons, List.nodup_cons, huniq, and_true]
    intro hnew
    obtain ⟨t, ht, hteq⟩ := List.mem_map.mp hnew
    exact hfresh t ht hteq

theorem addTransaction_fresh_id_unique_witness :
    (addTransaction E0 sLedger "alice" "c0"
        { productName := "salt", quantity := 2, price := 5, date := "2024-02-02" }
        "t2").2.customers "alice" = some
      [{ cBob with transactions :=
          [{ id := "t2", productName := "salt", quantity := 2, amount := 5,
             isPaid := false, date := E0.isoDate ("2024-02-02" ++ "T00:00:00") },
           tx1] }] ∧
    ((({ id := "t2", productName := "salt", quantity := 2, amount := 5,
         isPaid := false,
         date := E0.isoDate ("2024-02-02" ++ "T00:00:00") } : Transaction) ::
        cBob.transactions).map (fun t => t.id)).Nodup :=
  addTransaction_fresh_id_unique E0 sLedger "alice" "c0" "t2" "alice"
    { productName := "salt", quantity := 2, price := 5, date := "2024-02-02" }
    [] [] cBob rfl ⟨uAlice, by simp [sLedger], rfl⟩ rfl (by simp) rfl
    (by decide) (by decide)

/-- A token decoding to the exact username of a present user passes
`getUsernameFromToken`. -/
theorem auth_of_mem (E : Env) (s : Store) (tok uname : String)
    (hdec : E.atob tok = some uname)
    (hmem : ∃ w ∈ s.users, w.username = uname) :
    getUsernameFromToken E s tok = some uname := by
  obtain ⟨w, hw, hwname⟩ := hmem
  have hany : s.users.any (fun u => u.username == uname) = true :=
    any_true_of_mem _ _ w hw (by simp [hwname])
  simp [getUsernameFromToken, hdec, hany]

/-- C10: `updateUsername` refuses any new username that case-insensitively
matches some directory entry — the caller's own included, so a
case-only rename of one's own name fails with `UsernameTaken` and leaves
the store unchanged; the `App.tsx` handler pre-empts this by returning a
no-op success for a same-username-ignoring-case submission without calling
the API. -/
theorem updateUsername_rejects_own_case (E : Env) (s : Store) :
    (∀ (tok newU uname : String) (w : User),
      E.atob tok = some uname →
      (∃ v ∈ s.users, v.username = uname) →
      w ∈ s.users → w.username.toLower = newU.toLower →
      updateUsername E s tok newU = (.error .usernameTaken, s)) ∧
    (∀ (tok cu newU : String), newU.trim.toLower = cu.toLower →
      handleUpdateUsername (some tok) (some cu) newU = .noopSuccess) := by
  constructor
  · intro tok newU uname w hdec hv hw hwl
    have hauth : getUsernameFromToken E s tok = some uname :=
      auth_of_mem E s tok uname hdec hv
    have hany : s.users.any (fun u => u.username.toLower == newU.toLower) = true :=
      any_true_of_mem _ _ w hw (by simp [hwl])
    simp [updateUsername, hauth, hany]
  · intro tok cu newU h
    simp [handleUpdateUsername, h]

theorem updateUsername_rejects_own_case_witness :
    updateUsername E0 sAlice "alice" "ALICE" = (.error .usernameTaken, sAlice) ∧
    handleUpdateUsername (some "tok") (some ("alice".trim)) "alice" = .noopSuccess :=
  ⟨(updateUsername_rejects_own_case E0 sAlice).1 "alice" "ALICE" "alice" uAlice
      rfl ⟨uAlice, by simp [sAlice], rfl⟩ (by simp [sAlice])
      (by rw [toLower_data, toLower_data]; decide),
   (updateUsername_rejects_own_case E0 sAlice).2 "tok" ("alice".trim) "alice" rfl⟩

/-- C7: `deleteCustomer` with a present id removes the customer — the
resulting list is the id-filter, no remaining customer carries the id,
`getCustomers` no longer lists it and `toggleTransactionPaid` on that id
fails with `CustomerNotFound`, so none of its transactions are reachable;
with an absent id it succeeds and leaves the customer list unchanged,
whereas `deleteTransaction` fails with `TransactionNotFound` for an absent
transaction id. -/
theorem deleteCustomer_semantics (E : Env) (s : Store) (tok uname : String)
    (cl : List Customer)
    (hdec : E.atob tok = some uname)
    (hmem : ∃ w ∈ s.users, w.username = uname)
    (hcl : s.customers uname = some cl) :
    (∀ cid,
      (deleteCustomer E s tok cid).1 = .ok () ∧
      (deleteCustomer E s tok cid).2.customers uname =
        some (cl.filter (fun c => c.id != cid)) ∧
      (∀ c ∈ cl.filter (fun c => c.id != cid), c.id ≠ cid) ∧
      getCustomers E (deleteCustomer E s tok cid).2 tok =
        (.ok (cl.filter (fun c => c.id != cid)), (deleteCustomer E s tok cid).2) ∧
      (∀ tid, toggleTransactionPaid E (deleteCustomer E s tok cid).2 tok cid tid =
        (.error .customerNotFound, (deleteCustomer E s tok cid).2))) ∧
    (∀ cid, (∀ c ∈ cl, c.id ≠ cid) →
      (deleteCustomer E s tok cid).1 = .ok () ∧
      (deleteCustomer E s tok cid).2.customers uname = some cl) ∧
    (∀ (cid tid : String) (cl₁ cl₂ : List Customer) (c : Customer),
      cl = cl₁ ++ c :: cl₂ → (∀ d ∈ cl₁, d.id ≠ cid) → c.id = cid →
      (∀ t ∈ c.transactions, t.id ≠ tid) →
      deleteTransaction E s tok cid tid = (.error .transactionNotFound, s)) := by
  have hauth : getUsernameFromToken E s tok = some uname :=
    auth_of_mem E s tok uname hdec hmem
  have hdel : ∀ cid, deleteCustomer E s tok cid =
      (.ok (), { s with
        customers := mapSet s.customers uname (cl.filter (fun c => c.id != cid)),
        storedData := mapSet s.storedData uname (cl.filter (fun c => c.id != cid)) }) := by
    intro cid
    simp only [deleteCustomer, hauth, hcl, Option.getD_some, persistCustomers,
      mapSet_same]
  refine ⟨?_, ?_, ?_⟩
  · intro cid
    have hids : ∀ c ∈ cl.filter (fun c => c.id != cid), c.id ≠ cid := by
      intro c hc
      have h2 := (List.mem_filter.mp hc).2
      simpa using h2
    have hauth' : getUsernameFromToken E (deleteCustomer E s tok cid).2 tok
        = some uname := by
      rw [hdel]
      exact auth_of_mem E _ tok uname hdec (by simpa using hmem)
    refine ⟨by rw [hdel], by rw [hdel]; exact mapSet_same _ _ _, hids, ?_, ?_⟩
    · have hcl' : (deleteCustomer E s tok cid).2.customers uname =
          some (cl.filter (fun c => c.id != cid)) := by
        rw [hdel]; exact mapSet_same _ _ _
      simp only [getCustomers, hauth', hcl', Option.getD_some]
    · intro tid
      have hcl' : (deleteCustomer E s tok cid).2.customers uname =
          some (cl.filter (fun c => c.id != cid)) := by
        rw [hdel]; exact mapSet_same _ _ _
      have hnone : (cl.filter (fun c => c.id != cid)).findIdx?
          (fun c => c.id == cid) = none :=
        findIdx?_none_of_all _ _ fun c hc => by simp [hids c hc]
      simp only [toggleTransactionPaid, hauth', hcl', Option.getD_some, hnone]
  · intro cid hnone
    have hself : cl.filter (fun c => c.id != cid) = cl :=
      List.filter_eq_self.mpr fun c hc => by simp [hnone c hc]
    exact ⟨by rw [hdel], by rw [hdel, hself]; exact mapSet_same _ _ _⟩
  · intro cid tid cl₁ cl₂ c hsplit hpre hid htx
    have hidx : cl.findIdx? (fun d => d.id == cid) = some cl₁.length := by
      rw [hsplit]
      exact findIdx?_middle _ _ _ _ (fun x hx => by simp [hpre x hx]) (by simp [hid])
    have hget : cl.getD cl₁.length dCustomer = c := by
      rw [hsplit]; exact getD_middle _ _ _ _
    have htidx : c.transactions.findIdx? (fun t => t.id == tid) = none :=
      findIdx?_none_of_all _ _ fun t ht => by simp [htx t ht]
    simp only [deleteTransaction, hauth, hcl, Option.getD_some, hidx, hget, htidx]

theorem deleteCustomer_semantics_witness :
    (deleteCustomer E0 sLedger "alice" "c0").1 = .ok () ∧
    (deleteCustomer E0 sLedger "alice" "c0").2.customers "alice" = some [] ∧
    (deleteCustomer E0 sLedger "alice" "zz").2.customers "alice" = some [cBob] ∧
    deleteTransaction E0 sLedger "alice" "c0" "zz" =
      (.error .transactionNotFound, sLedger) := by
  have h := deleteCustomer_semantics E0 sLedger "alice" "alice" [cBob] rfl
    ⟨uAlice, by simp [sLedger], rfl⟩ rfl
  exact ⟨(h.1 "c0").1, (h.1 "c0").2.1, (h.2.1 "zz" (by decide)).2,
    h.2.2 "c0" "zz" [] [] cBob rfl (by simp) rfl (by decide)⟩

/-- C6: `verifyRecoveryAnswer` lowercases the answer before hashing, so any
letter-case variation of the registered answer passes; after
`resetPassword` the new password logs in and any old password whose hash
differs from the new one fails with `IncorrectPassword`. -/
theorem recovery_flow (E : Env) (s : Store)
    (us₁ us₂ : List User) (u : User)
    (answer origAnswer newPw oldPw : String)
    (husers : s.users = us₁ ++ u :: us₂)
    (hpre : ∀ w ∈ us₁, w.username.toLower ≠ u.username.toLower)
    (hans : u.recoveryAnswerHash = E.hashString origAnswer.toLower)
    (ha : answer.toLower = origAnswer.toLower) :
    verifyRecoveryAnswer E s u.username answer = (.ok true, s) ∧
    (resetPassword E s u.username newPw).1 = .ok () ∧
    login E (resetPassword E s u.username newPw).2 u.username newPw =
      (.ok (E.btoa u.username, u.username),
       (resetPassword E s u.username newPw).2) ∧
    (E.hashString oldPw ≠ E.hashString newPw →
      login E (resetPassword E s u.username newPw).2 u.username oldPw =
        (.error .incorrectPassword, (resetPassword E s u.username newPw).2)) := by
  have hfind : s.users.find?
      (fun w => w.username.toLower == u.username.toLower) = some u := by
    rw [husers]
    exact find?_middle _ _ _ _ (fun x hx => by simp [hpre x hx]) (by simp)
  have hidx : (us₁ ++ u :: us₂).findIdx?
      (fun w => w.username.toLower == u.username.toLower) = some us₁.length :=
    findIdx?_middle _ _ _ _ (fun x hx => by simp [hpre x hx]) (by simp)
  have hreset : resetPassword E s u.username newPw =
      (.ok (), { s with
        users := us₁ ++ { u with passwordHash := E.hashString newPw } :: us₂,
        storedUsers := us₁ ++ { u with passwordHash := E.hashString newPw } :: us₂ }) := by
    simp only [resetPassword, husers, hidx, getD_middle, set_middle, persistUsers]
  have hfind' : (us₁ ++ { u with passwordHash := E.hashString newPw } :: us₂).find?
      (fun w => w.username.toLower == u.username.toLower) =
        some { u with passwordHash := E.hashString newPw } :=
    find?_middle _ _ _ _ (fun x hx => by simp [hpre x hx]) (by simp)
  refine ⟨?_, ?_, ?_, ?_⟩
  · simp [verifyRecoveryAnswer, hfind, ha, hans]
  · rw [hreset]
  · rw [hreset]
    simp [login, hfind']
  · intro hpw
    have hpw' : E.hashString newPw ≠ E.hashString oldPw := fun hh => hpw hh.symm
    rw [hreset]
    simp [login, hfind', hpw']

theorem recovery_flow_witness :
    verifyRecoveryAnswer E0 sAlice "alice" "BLUE" = (.ok true, sAlice) ∧
    (resetPassword E0 sAlice "alice" "npw").1 = .ok () ∧
    login E0 (resetPassword E0 sAlice "alice" "npw").2 "alice" "npw" =
      (.ok ("alice", "alice"), (resetPassword E0 sAlice "alice" "npw").2) ∧
    login E0 (resetPassword E0 sAlice "alice" "npw").2 "alice" "pw" =
      (.error .incorrectPassword, (resetPassword E0 sAlice "alice" "npw").2) := by
  have h := recovery_flow E0 sAlice [] [] uAlice "BLUE" "blue" "npw" "pw" rfl
    (by simp) (by rw [toLower_data]; decide)
    (by rw [toLower_data, toLower_data]; decide)
  exact ⟨h.1, h.2.1, h.2.2.1, h.2.2.2 (by decide)⟩

/-- C2: when the new username collides with nobody (case-insensitively),
`updateUsername` succeeds with a token for the new name; afterwards
`getCustomers` with the new token returns exactly the old list, the
customer-data entries (memory and storage) keyed by the old username are
deleted, and a token still encoding the old username fails with
`Unauthorized`. -/
theorem updateUsername_cascade (E : Env) (s : Store)
    (tok newU : String) (us₁ us₂ : List User) (u : User) (L : List Customer)
    (hdec : E.atob tok = some u.username)
    (hround : E.atob (E.btoa newU) = some newU)
    (husers : s.users = us₁ ++ u :: us₂)
    (hold : ∀ w ∈ us₁ ++ us₂, w.username ≠ u.username)
    (hnew : ∀ w ∈ s.users, w.username.toLower ≠ newU.toLower)
    (hL : s.customers u.username = some L) :
    (updateUsername E s tok newU).1 = .ok (E.btoa newU, newU) ∧
    getCustomers E (updateUsername E s tok newU).2 (E.btoa newU) =
      (.ok L, (updateUsername E s tok newU).2) ∧
    (updateUsername E s tok newU).2.customers u.username = none ∧
    (updateUsername E s tok newU).2.storedData u.username = none ∧
    (∀ t', E.atob t' = some u.username →
      getCustomers E (updateUsername E s tok newU).2 t' =
        (.error .unauthorized, (updateUsername E s tok newU).2)) := by
  have hmemu : u ∈ s.users := by rw [husers]; simp
  have hauth : getUsernameFromToken E s tok = some u.username :=
    auth_of_mem E s tok u.username hdec ⟨u, hmemu, rfl⟩
  have hany : ((us₁ ++ u :: us₂).any fun w => w.username.toLower == newU.toLower)
      = false :=
    any_false_of_all _ _ fun w hw => by
      simp [hnew w (by rw [husers]; exact hw)]
  have hne' : newU ≠ u.username := fun h => hnew u hmemu (by rw [h])
  have hidx : (us₁ ++ u :: us₂).findIdx? (fun w => w.username == u.username) =
      some us₁.length :=
    findIdx?_middle _ _ _ _
      (fun x hx => by simp [hold x (List.mem_append.mpr (Or.inl hx))]) (by simp)
  have haux : mapDel (mapSet s.customers newU L) u.username newU = some L := by
    rw [mapDel_other _ _ _ hne']; exact mapSet_same _ _ _
  have hupd : updateUsername E s tok newU =
      (.ok (E.btoa newU, newU),
       { users := us₁ ++ { u with username := newU } :: us₂,
         customers := mapDel (mapSet s.customers newU L) u.username,
         storedUsers := us₁ ++ { u with username := newU } :: us₂,
         storedData := mapDel (mapSet s.storedData newU L) u.username }) := by
    simp only [updateUsername, hauth, hany, Bool.false_eq_true, if_false,
      husers, hidx, Option.getD_some, getD_middle, set_middle, hL,
      persistUsers, persistCustomers, removeCustomerData, haux]
  have hcustF : (updateUsername E s tok newU).2.customers newU = some L := by
    rw [hupd]; exact haux
  have hauth2 : getUsernameFromToken E (updateUsername E s tok newU).2
      (E.btoa newU) = some newU := by
    refine auth_of_mem E _ _ _ hround ⟨{ u with username := newU }, ?_, rfl⟩
    rw [hupd]; simp
  refine ⟨by rw [hupd], ?_, ?_, ?_, ?_⟩
  · simp only [getCustomers, hauth2, hcustF, Option.getD_some]
  · rw [hupd]; exact mapDel_same _ _
  · rw [hupd]; exact mapDel_same _ _
  · intro t' ht'
    have hnoold : (updateUsername E s tok newU).2.users.any
        (fun w => w.username == u.username) = false := by
      rw [hupd]
      refine any_false_of_all _ _ fun w hw => ?_
      rcases List.mem_append.mp hw with h1 | h2
      · simp [hold w (by simp [h1])]
      · rcases List.mem_cons.mp h2 with h3 | h4
        · subst h3; simp [hne']
        · simp [hold w (by simp [h4])]
    have hauthF : getUsernameFromToken E (updateUsername E s tok newU).2 t' = none := by
      simp [getUsernameFromToken, ht', hnoold]
    simp only [getCustomers, hauthF]

theorem updateUsername_cascade_witness :
    (updateUsername E0 sAlice "alice" "bob").1 = .ok ("bob", "bob") ∧
    getCustomers E0 (updateUsername E0 sAlice "alice" "bob").2 "bob" =
      (.ok [], (updateUsername E0 sAlice "alice" "bob").2) ∧
    (updateUsername E0 sAlice "alice" "bob").2.customers "alice" = none ∧
    (updateUsername E0 sAlice "alice" "bob").2.storedData "alice" = none ∧
    getCustomers E0 (updateUsername E0 sAlice "alice" "bob").2 "alice" =
      (.error .unauthorized, (updateUsername E0 sAlice "alice" "bob").2) := by
  have h := updateUsername_cascade E0 sAlice "alice" "bob" [] [] uAlice []
    rfl rfl rfl (by simp)
    (by
      intro w hw
      simp only [sAlice, List.mem_singleton] at hw
      subst hw
      rw [toLower_data, toLower_data]
      decide)
    rfl
  exact ⟨h.1, h.2.1, h.2.2.1, h.2.2.2.1, h.2.2.2.2 "alice" rfl⟩

/-- C4: a single `toggleTransactionPaid` returns the targeted transaction
with `isPaid` negated, leaving its other fields and its position in the
sequence unchanged; toggling the same transaction twice restores the store
(memory and storage) to its value before the first call. -/
theorem toggleTransactionPaid_involution (E : Env) (s : Store)
    (tok cid tid uname : String)
    (cl₁ cl₂ : List Customer) (c : Customer)
    (l₁ l₂ : List Transaction) (tx : Transaction)
    (hdec : E.atob tok = some uname)
    (hmem : ∃ w ∈ s.users, w.username = uname)
    (hcl : s.customers uname = some (cl₁ ++ c :: cl₂))
    (hc1 : ∀ d ∈ cl₁, d.id ≠ cid)
    (hcid : c.id = cid)
    (htx : c.transactions = l₁ ++ tx :: l₂)
    (ht1 : ∀ t ∈ l₁, t.id ≠ tid)
    (ht2 : ∀ t ∈ l₂, t.id ≠ tid)
    (htid : tx.id = tid)
    (hsync : s.storedData uname = some (cl₁ ++ c :: cl₂)) :
    (toggleTransactionPaid E s tok cid tid).1 =
      .ok { tx with isPaid := !tx.isPaid } ∧
    (toggleTransactionPaid E s tok cid tid).2.customers uname =
      some (cl₁ ++ { c with transactions :=
        l₁ ++ { tx with isPaid := !tx.isPaid } :: l₂ } :: cl₂) ∧
    toggleTransactionPaid E (toggleTransactionPaid E s tok cid tid).2
      tok cid tid = (.ok tx, s) := by
  have hauth : getUsernameFromToken E s tok = some uname :=
    auth_of_mem E s tok uname hdec hmem
  have hidx : (cl₁ ++ c :: cl₂).findIdx? (fun d => d.id == cid) = some cl₁.length :=
    findIdx?_middle _ _ _ _ (fun x hx => by simp [hc1 x hx]) (by simp [hcid])
  have hscan : toggleScan (l₁ ++ tx :: l₂) tid =
      (l₁ ++ { tx with isPaid := !tx.isPaid } :: l₂,
       some { tx with isPaid := !tx.isPaid }) :=
    toggleScan_middle l₁ l₂ tx tid ht1 ht2 htid
  have h1 : toggleTransactionPaid E s tok cid tid =
      (.ok { tx with isPaid := !tx.isPaid },
       { s with
         customers := mapSet s.customers uname (cl₁ ++
           { c with transactions :=
             l₁ ++ { tx with isPaid := !tx.isPaid } :: l₂ } :: cl₂),
         storedData := mapSet s.storedData uname (cl₁ ++
           { c with transactions :=
             l₁ ++ { tx with isPaid := !tx.isPaid } :: l₂ } :: cl₂) }) := by
    simp only [toggleTransactionPaid, hauth, hcl, Option.getD_some, hidx,
      getD_middle, htx, hscan, set_middle, persistCustomers, mapSet_same]
  have hauth1 : getUsernameFromToken E (toggleTransactionPaid E s tok cid tid).2
      tok = some uname := by
    rw [h1]
    exact auth_of_mem E _ tok uname hdec (by simpa using hmem)
  have hcl1 : (toggleTransactionPaid E s tok cid tid).2.customers uname =
      some (cl₁ ++ { c with transactions :=
        l₁ ++ { tx with isPaid := !tx.isPaid } :: l₂ } :: cl₂) := by
    rw [h1]
    exact mapSet_same _ _ _
  have hidx1 : (cl₁ ++ { c with transactions :=
      l₁ ++ { tx with isPaid := !tx.isPaid } :: l₂ } :: cl₂).findIdx?
        (fun d => d.id == cid) = some cl₁.length :=
    findIdx?_middle _ _ _ _ (fun x hx => by simp [hc1 x hx]) (by simp [hcid])
  have hflip2 : ({ { tx with isPaid := !tx.isPaid } with
      isPaid := !(!tx.isPaid) } : Transaction) = tx := by
    cases tx
    simp
  have hscan1 : toggleScan (l₁ ++ { tx with isPaid := !tx.isPaid } :: l₂) tid =
      (l₁ ++ tx :: l₂, some tx) := by
    have h := toggleScan_middle l₁ l₂ { tx with isPaid := !tx.isPaid } tid
      ht1 ht2 (by simpa using htid)
    rwa [hflip2] at h
  have hceta : ({ c with transactions := l₁ ++ tx :: l₂ } : Customer) = c := by
    cases c
    simp only at htx
    simp [htx]
  have hauth2 : getUsernameFromToken E
      { s with
        customers := mapSet s.customers uname (cl₁ ++
          { c with transactions :=
            l₁ ++ { tx with isPaid := !tx.isPaid } :: l₂ } :: cl₂),
        storedData := mapSet s.storedData uname (cl₁ ++
          { c with transactions :=
            l₁ ++ { tx with isPaid := !tx.isPaid } :: l₂ } :: cl₂) } tok =
      some uname :=
    auth_of_mem E _ tok uname hdec (by simpa using hmem)
  have h2 : toggleTransactionPaid E
      { s with
        customers := mapSet s.customers uname (cl₁ ++
          { c with transactions :=
            l₁ ++ { tx with isPaid := !tx.isPaid } :: l₂ } :: cl₂),
        storedData := mapSet s.storedData uname (cl₁ ++
          { c with transactions :=
            l₁ ++ { tx with isPaid := !tx.isPaid } :: l₂ } :: cl₂) }
      tok cid tid = (.ok tx, s) := by
    simp only [toggleTransactionPaid, hauth2, mapSet_same, Option.getD_some,
      hidx1, getD_middle, hscan1, hceta, set_middle, persistCustomers,
      mapSet_mapSet, mapSet_self s.customers uname (cl₁ ++ c :: cl₂) hcl,
      mapSet_self s.storedData uname (cl₁ ++ c :: cl₂) hsync, hcl]
  refine ⟨by rw [h1], by rw [h1]; exact mapSet_same _ _ _, ?_⟩
  rw [h1]
  exact h2

theorem toggleTransactionPaid_involution_witness :
    (toggleTransactionPaid E0 sLedger "alice" "c0" "t1").1 =
      .ok { tx1 with isPaid := !tx1.isPaid } ∧
    (toggleTransactionPaid E0 sLedger "alice" "c0" "t1").2.customers "alice" =
      some [{ cBob with transactions := [{ tx1 with isPaid := !tx1.isPaid }] }] ∧
    toggleTransactionPaid E0
      (toggleTransactionPaid E0 sLedger "alice" "c0" "t1").2
      "alice" "c0" "t1" = (.ok tx1, sLedger) :=
  toggleTransactionPaid_involution E0 sLedger "alice" "c0" "t1" "alice"
    [] [] cBob [] [] tx1 rfl ⟨uAlice, by simp [sLedger], rfl⟩ rfl
    (by simp) rfl rfl (by simp) (by simp) rfl rfl

/-- One request against the API: one constructor per operation of the
public contract. -/
inductive Op where
  | login (username password : String)
  | register (username password recoveryQuestion recoveryAnswer : String)
  | findUserForRecovery (username : String)
  | verifyRecoveryAnswer (username answer : String)
  | resetPassword (username newPassword : String)
  | updateUsername (token newUsername : String)
  | getCustomers (token : String)
  | addCustomer (token name newId : String)
  | renameCustomer (token customerId newName : String)
  | deleteCustomer (token customerId : String)
  | addTransaction (token customerId : String) (txData : TxData) (newId : String)
  | toggleTransactionPaid (token customerId transactionId : String)
  | deleteTransaction (token customerId transactionId : String)

/-- Forget the success payload, keeping the error and the store. -/
def dropVal {α : Type} (r : Except Err α × Store) : Except Err Unit × Store :=
  match r.1 with
  | .error e => (.error e, r.2)
  | .ok _ => (.ok (), r.2)

/-- Dispatch one request to the corresponding API function. -/
def runOp (E : Env) (op : Op) (s : Store) : Except Err Unit × Store :=
  match op with
  | .login un pw => dropVal (login E s un pw)
  | .register un pw q a => dropVal (register E s un pw q a)
  | .findUserForRecovery un => dropVal (findUserForRecovery s un)
  | .verifyRecoveryAnswer un a => dropVal (verifyRecoveryAnswer E s un a)
  | .resetPassword un pw => dropVal (resetPassword E s un pw)
  | .updateUsername tok nu => dropVal (updateUsername E s tok nu)
  | .getCustomers tok => dropVal (getCustomers E s tok)
  | .addCustomer tok n i => dropVal (addCustomer E s tok n i)
  | .renameCustomer tok cid n => dropVal (renameCustomer E s tok cid n)
  | .deleteCustomer tok cid => dropVal (deleteCustomer E s tok cid)
  | .addTransaction tok cid td i => dropVal (addTransaction E s tok cid td i)
  | .toggleTransactionPaid tok cid tid => dropVal (toggleTransactionPaid E s tok cid tid)
  | .deleteTransaction tok cid tid => dropVal (deleteTransaction E s tok cid tid)

/-- C8: every operation that ends in one of the taxonomy errors leaves the
whole store — in-memory database and persisted entries alike — exactly as
it was before the call. -/
theorem error_atomicity (E : Env) (op : Op) (s : Store) (e : Err) (s' : Store)
    (h : runOp E op s = (.error e, s')) : s' = s := by
  cases op <;>
    simp only [runOp, dropVal, login, register, findUserForRecovery,
      verifyRecoveryAnswer, resetPassword, updateUsername, getCustomers,
      addCustomer, renameCustomer, deleteCustomer, addTransaction,
      toggleTransactionPaid, deleteTransaction] at h <;>
    (repeat' split at h) <;> simp_all

theorem error_atomicity_witness :
    (runOp E0 (.getCustomers "zz") sAlice).2 = sAlice :=
  error_atomicity E0 (.getCustomers "zz") sAlice .unauthorized
    ((runOp E0 (.getCustomers "zz") sAlice).2) rfl
